import Mathlib

/-!
Verification of the janus-gateway transcode plugin (`src/plugins/janus_transcode.c`)
against its natural-language specification.

The C code is shallowly embedded: each C function relevant to a claim is
translated into an executable Lean definition over explicit state, working with
`Nat`/`Int` (machine words carry their bounds explicitly where overflow
matters).  File I/O and host-gateway callbacks are modelled as explicit inputs
and effect records.
-/

namespace JanusTranscode

/-! ## Frame index builder (`janus_transcode_get_frames`)

The builder makes two passes over the RTP records of an MJR file.  We model an
MJR file's RTP records as the list of `(seq, ts)` pairs read from the 16-byte
RTP headers, in file order (`seq` is the 16-bit sequence number, `ts` the
32-bit RTP timestamp, both already converted from network byte order). -/

/-- A node of the ordered frame list built by `janus_transcode_get_frames`
(`janus_transcode_frame_packet`): `seq` is the 16-bit RTP sequence number and
`ts` the extended 64-bit timestamp.  (`len`/`offset` play no role in the
ordering claims and are omitted.) -/
structure FramePacket where
  seq : Nat
  ts : Nat
  deriving Repr, DecidableEq

/-- `abs(tmp->seq - p->seq)` from the insertion loop: both `uint16_t` values
are promoted to `int` before the subtraction, so this is the exact absolute
difference. -/
def seqDiff (a b : Nat) : Nat := ((a : Int) - (b : Int)).natAbs

/-- State of pass 1 of `janus_transcode_get_frames` (lines 2039, 2168-2184):
`first_ts`, `last_ts` and `reset` are the three `uint32_t` locals; the ghost
flag `resetSeen` records whether any assignment to `reset` was executed, i.e.
whether a timestamp reset was discovered. -/
structure Pass1State where
  first_ts : Nat
  last_ts : Nat
  reset : Nat
  resetSeen : Bool
  deriving Repr, DecidableEq

/-- Initial pass-1 state: `first_ts = 0, last_ts = 0, reset = 0`. -/
def pass1Init : Pass1State := ⟨0, 0, 0, false⟩

/-- One pass-1 step, processing one RTP timestamp (lines 2168-2184):
if `last_ts == 0` the packet is taken as the first one and `first_ts` is
anchored (minus 10^6 when large enough); otherwise a reset is declared when
the timestamp drops by more than 2*10^9, and an already-declared reset anchor
is lowered when a later in-order timestamp undercuts it. -/
def pass1Step (s : Pass1State) (ts : Nat) : Pass1State :=
  if s.last_ts = 0 then
    let f := if ts > 1000000 then ts - 1000000 else ts
    { s with first_ts := f, last_ts := ts }
  else if ts < s.last_ts then
    if s.last_ts - ts > 2000000000 then
      { s with reset := ts, resetSeen := true, last_ts := ts }
    else
      { s with last_ts := ts }
  else if ts < s.reset then
    { s with reset := ts, resetSeen := true, last_ts := ts }
  else
    { s with last_ts := ts }

/-- Pass 1 over the whole file: fold `pass1Step` over the RTP timestamps in
file order. -/
def pass1 (tss : List Nat) : Pass1State := tss.foldl pass1Step pass1Init

/-- Extended 64-bit timestamp computation of pass 2 (lines 2220-2234):
`reset == 0` takes the plain timestamp; otherwise timestamps above `first_ts`
are pre-reset and the rest get `2^32` added. -/
def tsExt (reset first_ts ts : Nat) : Nat :=
  if reset = 0 then ts
  else if ts > first_ts then ts
  else 2 ^ 32 + ts

/-- The `break` condition of the backward insertion walk (lines 2248-2292):
the new packet `p` is inserted right after `tmp` iff `tmp` compares earlier
than `p`: smaller extended timestamp, or equal timestamp and either an
in-order sequence step (difference < 10000) or a wrapped one
(difference > 10000 with `p` numerically smaller). -/
def insertAfter (tmp p : FramePacket) : Bool :=
  if tmp.ts < p.ts then true
  else if tmp.ts = p.ts then
    if tmp.seq < p.seq && seqDiff tmp.seq p.seq < 10000 then true
    else if tmp.seq > p.seq && seqDiff tmp.seq p.seq > 10000 then true
    else false
  else false

/-- Backward insertion into the doubly linked list, represented tail-first:
`r` is the current list *reversed* (so its head is the `last` pointer).  The
walk starts from `last` and inserts `p` after the first node satisfying
`insertAfter`; if none does, `p` becomes the new head of the real list
(lines 2243-2302). -/
def insertRev (r : List FramePacket) (p : FramePacket) : List FramePacket :=
  match r with
  | [] => [p]
  | x :: xs => if insertAfter x p then p :: x :: xs else x :: insertRev xs p

/-- Pass 2 list construction, tail-first: the first packet becomes the whole
list (line 2239-2242), every further packet is inserted by the backward walk. -/
def buildRev (ps : List FramePacket) : List FramePacket := ps.foldl insertRev []

/-- The frame list in head-to-tail order, as returned by
`janus_transcode_get_frames`. -/
def buildList (ps : List FramePacket) : List FramePacket := (buildRev ps).reverse

/-- The two passes of `janus_transcode_get_frames` over the RTP records
`recs` (a `(seq, ts)` pair per RTP record, in file order): pass 1 computes
`first_ts`/`reset`, pass 2 extends each timestamp and inserts the packets
into the ordered list. -/
def getFrames (recs : List (Nat × Nat)) : List FramePacket :=
  let s := pass1 (recs.map Prod.snd)
  buildList (recs.map fun r => ⟨r.1, tsExt s.reset s.first_ts r.2⟩)

/-- The wrap-aware comparison exactly as the claim words it: ordered primarily
by `ts`, and for equal `ts` by sequence number, where a difference of *more
than* 10000 is treated as a wrap making the numerically smaller value the
later packet. -/
def specLE (a b : FramePacket) : Prop :=
  a.ts < b.ts ∨ (a.ts = b.ts ∧
    (if seqDiff a.seq b.seq > 10000 then b.seq ≤ a.seq else a.seq ≤ b.seq))

instance (a b : FramePacket) : Decidable (specLE a b) :=
  inferInstanceAs (Decidable (a.ts < b.ts ∨ (a.ts = b.ts ∧
    (if seqDiff a.seq b.seq > 10000 then b.seq ≤ a.seq else a.seq ≤ b.seq))))

/-- The comparison the code actually guarantees between adjacent packets:
non-decreasing `ts`, and on equal `ts` the pair never steps down by less than
10000 nor up by more than 10000; a difference of exactly 10000 may appear in
either order. -/
def wrapLE (a b : FramePacket) : Prop :=
  a.ts ≤ b.ts ∧ (a.ts = b.ts →
    ¬(b.seq < a.seq ∧ seqDiff a.seq b.seq < 10000) ∧
    ¬(a.seq < b.seq ∧ seqDiff a.seq b.seq > 10000))

instance (a b : FramePacket) : Decidable (wrapLE a b) :=
  inferInstanceAs (Decidable (a.ts ≤ b.ts ∧ (a.ts = b.ts →
    ¬(b.seq < a.seq ∧ seqDiff a.seq b.seq < 10000) ∧
    ¬(a.seq < b.seq ∧ seqDiff a.seq b.seq > 10000))))

/-- The extended-timestamp rule exactly as the claim words it, keyed on
whether a reset *was discovered* in pass 1 (rather than on the value of the
`reset` variable). -/
def tsExtSpec (s : Pass1State) (ts : Nat) : Nat :=
  if s.resetSeen = false then ts
  else if ts > s.first_ts then ts
  else 2 ^ 32 + ts

theorem seqDiff_comm (a b : Nat) : seqDiff a b = seqDiff b a := by
  unfold seqDiff; omega

theorem insertAfter_eq_true_iff (t p : FramePacket) :
    insertAfter t p = true ↔
      t.ts < p.ts ∨ (t.ts = p.ts ∧
        ((t.seq < p.seq ∧ seqDiff t.seq p.seq < 10000) ∨
         (p.seq < t.seq ∧ seqDiff t.seq p.seq > 10000))) := by
  unfold insertAfter
  split_ifs with h1 h2 <;>
    simp_all [Bool.and_eq_true, decide_eq_true_eq]

theorem insertAfter_asymm {t p : FramePacket} (h : insertAfter t p = true) :
    insertAfter p t = false := by
  rw [insertAfter_eq_true_iff] at h
  rw [Bool.eq_false_iff, Ne, insertAfter_eq_true_iff]
  unfold seqDiff at *
  omega

theorem insertRev_head (r : List FramePacket) (p : FramePacket) :
    (insertRev r p).head? = some p ∨ (insertRev r p).head? = r.head? := by
  cases r with
  | nil => left; rfl
  | cons x xs =>
    unfold insertRev
    split_ifs
    · left; rfl
    · right; rfl

theorem chain'_insertRev {r : List FramePacket} (p : FramePacket)
    (h : List.Chain' (fun x y => insertAfter x y = false) r) :
    List.Chain' (fun x y => insertAfter x y = false) (insertRev r p) := by
  induction r with
  | nil => simp [insertRev]
  | cons x xs ih =>
    rw [List.chain'_cons'] at h
    unfold insertRev
    split_ifs with hx
    · exact List.chain'_cons'.mpr ⟨fun y hy => by
        simp only [List.head?_cons, Option.mem_def, Option.some.injEq] at hy
        rw [← hy]; exact insertAfter_asymm hx,
        List.chain'_cons'.mpr h⟩
    · refine List.chain'_cons'.mpr ⟨fun y hy => ?_, ih h.2⟩
      rcases insertRev_head xs p with h1 | h1
      · rw [h1, Option.mem_def, Option.some.injEq] at hy
        rw [← hy]
        exact Bool.not_eq_true _ ▸ hx
      · rw [h1] at hy
        exact h.1 y hy

theorem chain'_buildRev (ps : List FramePacket) :
    List.Chain' (fun x y => insertAfter x y = false) (buildRev ps) := by
  suffices h : ∀ acc, List.Chain' (fun x y => insertAfter x y = false) acc →
      List.Chain' (fun x y => insertAfter x y = false) (ps.foldl insertRev acc) by
    exact h [] (by simp)
  induction ps with
  | nil => intro acc hacc; exact hacc
  | cons q qs ih =>
    intro acc hacc
    exact ih (insertRev acc q) (chain'_insertRev q hacc)

theorem wrapLE_iff_insertAfter (a b : FramePacket) :
    wrapLE a b ↔ insertAfter b a = false := by
  rw [Bool.eq_false_iff, Ne, insertAfter_eq_true_iff]
  unfold wrapLE seqDiff
  omega

/-- After any sequence of pass-1 steps, if no reset was ever discovered the
`reset` variable still holds its initial value 0; and conversely a nonzero
`reset` implies a reset was discovered. -/
theorem pass1_reset_zero_of_not_seen (tss : List Nat) :
    (pass1 tss).resetSeen = false → (pass1 tss).reset = 0 := by
  unfold pass1
  suffices h : ∀ s : Pass1State, (s.resetSeen = false → s.reset = 0) →
      ((tss.foldl pass1Step s).resetSeen = false → (tss.foldl pass1Step s).reset = 0) by
    exact h pass1Init (fun _ => rfl)
  induction tss with
  | nil => intro s hs; exact hs
  | cons t ts ih =>
    intro s hs
    refine ih (pass1Step s t) ?_
    unfold pass1Step
    split_ifs <;> simp_all

/-- C1 (counterexample): the frame list is *not* always non-decreasing under
the claim's wrap-aware comparison.  An MJR file holding two RTP packets with
the same timestamp and sequence numbers 0 and 10000 (a difference of exactly
10000, which the claim does not treat as a wrap) is indexed as
`[(seq 10000), (seq 0)]`: the insertion walk treats the pair as unordered and
prepends, so the adjacent pair decreases in sequence number without a wrap. -/
theorem claim_C1_counterexample :
    getFrames [(0, 1), (10000, 1)] =
      [{ seq := 10000, ts := 1 }, { seq := 0, ts := 1 }] ∧
    ¬ List.Chain' specLE (getFrames [(0, 1), (10000, 1)]) := by
  have hval : getFrames [(0, 1), (10000, 1)] =
      [{ seq := 10000, ts := 1 }, { seq := 0, ts := 1 }] := rfl
  refine ⟨hval, ?_⟩
  rw [hval, List.chain'_cons]
  intro h
  exact absurd h.1 (by decide)

/-- C1 (amended): for every frame list produced by `janus_transcode_get_frames`,
adjacent packets are non-decreasing in extended timestamp, and packets sharing
a timestamp never step *down* in sequence number by less than 10000 nor *up*
by more than 10000 — i.e. the list is sorted under the wrap-aware comparison
except that two packets whose sequence numbers differ by exactly 10000 are
unordered and may appear in either relative order. -/
theorem claim_C1_frame_list_sorted (recs : List (Nat × Nat)) :
    List.Chain' wrapLE (getFrames recs) := by
  unfold getFrames buildList
  rw [List.chain'_reverse]
  refine List.Chain'.imp ?_ (chain'_buildRev _)
  intro x y h
  exact (wrapLE_iff_insertAfter y x).mpr h

/-- C2 (counterexample): the pre/post-reset rule is keyed on `reset == 0`,
not on whether a reset was discovered.  In a file whose timestamps are
`[3000000000, 0]`, pass 1 discovers a reset (the drop exceeds 2*10^9) but the
reset anchor is the new timestamp 0, so pass 2 takes the no-reset branch:
the post-reset packet with timestamp 0 gets `ts_ext = 0`, not `2^32 + 0` as
the claim requires. -/
theorem claim_C2_counterexample :
    (pass1 [3000000000, 0]).resetSeen = true ∧
    (0 : Nat) ≤ (pass1 [3000000000, 0]).first_ts ∧
    tsExtSpec (pass1 [3000000000, 0]) 0 = 2 ^ 32 ∧
    tsExt (pass1 [3000000000, 0]).reset (pass1 [3000000000, 0]).first_ts 0 = 0 := by
  refine ⟨rfl, ?_, ?_, rfl⟩
  · decide
  · rfl

/-- C2 (amended): the extended timestamp equals the raw RTP timestamp whenever
the pass-1 `reset` variable is 0 — which covers every file in which no reset
was discovered, but also the degenerate case of a reset whose anchor is
timestamp 0; when `reset` is nonzero, packets above `first_ts` are pre-reset
(`ts_ext = ts`) and the rest are post-reset (`ts_ext = 2^32 + ts`). -/
theorem claim_C2_ts_ext (tss : List Nat) (ts : Nat) :
    ((pass1 tss).resetSeen = false → (pass1 tss).reset = 0) ∧
    ((pass1 tss).reset = 0 → tsExt (pass1 tss).reset (pass1 tss).first_ts ts = ts) ∧
    ((pass1 tss).reset ≠ 0 → ts > (pass1 tss).first_ts →
      tsExt (pass1 tss).reset (pass1 tss).first_ts ts = ts) ∧
    ((pass1 tss).reset ≠ 0 → ts ≤ (pass1 tss).first_ts →
      tsExt (pass1 tss).reset (pass1 tss).first_ts ts = 2 ^ 32 + ts) := by
  refine ⟨pass1_reset_zero_of_not_seen tss, ?_, ?_, ?_⟩ <;>
    · intros
      unfold tsExt
      split_ifs <;> first | rfl | omega

theorem claim_C2_ts_ext_witness :
    tsExt (pass1 [3000000000, 100]).reset (pass1 [3000000000, 100]).first_ts 100 =
      2 ^ 32 + 100 :=
  (claim_C2_ts_ext [3000000000, 100] 100).2.2.2 (by decide) (by decide)

/-! ## Replay pacer (`janus_transcode_playout_thread`, lines 2390-2538)

The pacer's wall-clock arithmetic uses `struct timeval`; we model it as a pair
of `Int` fields and mirror the second/microsecond manipulations verbatim
(including the reference-time update of lines 2452-2460).  C's `int64_t`
division and modulo truncate toward zero, hence `Int.tdiv`/`Int.tmod`. -/

/-- A `struct timeval`. -/
structure TimeVal where
  sec : Int
  usec : Int
  deriving Repr, DecidableEq

/-- Total microseconds represented by a `timeval`. -/
def tvTotal (t : TimeVal) : Int := t.sec * 1000000 + t.usec

/-- The elapsed-time computation of lines 2440-2447: component-wise difference
with a manual borrow, summed into microseconds. -/
def tvPassed (before now : TimeVal) : Int :=
  if now.usec - before.usec < 0 then
    (now.sec - before.sec - 1) * 1000000 + (now.usec - before.usec + 1000000)
  else (now.sec - before.sec) * 1000000 + (now.usec - before.usec)

/-- Audio clock rate selection (lines 2406-2408): 48 kHz unless the payload
type is 0, 8 or 9 (pcmu/pcma/g722), which use 8 kHz. -/
def akhzOf (audio_pt : Int) : Int :=
  if audio_pt = 0 ∨ audio_pt = 8 ∨ audio_pt = 9 then 8 else 48

/-- Video clock rate (line 2409): fixed at 90 kHz. -/
def vkhz : Int := 90

/-- The intended spacing in microseconds: `ts_diff = (ts_diff*1000)/khz` with
`ts_diff = cur - prev` (lines 2437-2438 / 2496-2497); C `int64_t` division
truncates toward zero. -/
def tsDiffUsec (prevTs curTs khz : Int) : Int :=
  Int.tdiv ((curTs - prevTs) * 1000) khz

/-- The reference-time update performed on a non-first send (lines 2452-2460):
add `ts_diff % 1000000` to the microsecond field, carry when it exceeds 10^6,
then add the whole seconds of `ts_diff` to the second field (and, as the code
does, subtract that same second count from the microsecond field). -/
def updateBefore (before : TimeVal) (tsDiff : Int) : TimeVal :=
  let b := { before with usec := before.usec + Int.tmod tsDiff 1000000 }
  let b := if b.usec > 1000000 then { sec := b.sec + 1, usec := b.usec - 1000000 } else b
  if Int.tdiv tsDiff 1000000 > 0 then
    { sec := b.sec + Int.tdiv tsDiff 1000000, usec := b.usec - Int.tdiv tsDiff 1000000 }
  else b

/-- Result of one medium's half of a scheduling round. -/
structure PacerStep where
  sent : Bool
  before : TimeVal
  deriving Repr, DecidableEq

/-- The audio half of one scheduling round (lines 2419-2474).  `isFirst` is
the `audio == session->aframes` test; the first packet is sent immediately and
the reference time set to `now`; otherwise the packet is sent iff the elapsed
time since the reference is not below the intended spacing minus 5 ms. -/
def audioRound (isFirst : Bool) (prevTs curTs : Nat) (khz : Int)
    (before now : TimeVal) : PacerStep :=
  if isFirst then { sent := true, before := now }
  else if tvPassed before now < tsDiffUsec (prevTs : Int) (curTs : Int) khz - 5000 then
    { sent := false, before := before }
  else { sent := true, before := updateBefore before (tsDiffUsec (prevTs : Int) (curTs : Int) khz) }

/-- Length of the leading run of packets sharing timestamp `ts` (the
`while(video && video->ts == ts)` send loops, lines 2479-2489 / 2520-2533). -/
def leadingGroup (ts : Nat) : List FramePacket → Nat
  | [] => 0
  | p :: rest => if p.ts = ts then leadingGroup ts rest + 1 else 0

/-- The video list after sending a leading equal-`ts` group. -/
def dropGroup (ts : Nat) : List FramePacket → List FramePacket
  | [] => []
  | p :: rest => if p.ts = ts then dropGroup ts rest else p :: rest

/-- Result of the video half of one scheduling round. -/
structure VideoRoundResult where
  sentCount : Nat
  rest : List FramePacket
  before : TimeVal
  deriving Repr, DecidableEq

/-- The video half of one scheduling round (lines 2475-2537): like the audio
half, but a send dispatches the whole leading group of packets sharing the
head packet's timestamp (a fragmented frame). -/
def videoRound (video : List FramePacket) (isFirst : Bool) (prevTs : Nat)
    (khz : Int) (before now : TimeVal) : VideoRoundResult :=
  match video with
  | [] => { sentCount := 0, rest := [], before := before }
  | p :: rest =>
    if isFirst then
      { sentCount := leadingGroup p.ts (p :: rest),
        rest := dropGroup p.ts (p :: rest), before := now }
    else if tvPassed before now < tsDiffUsec (prevTs : Int) (p.ts : Int) khz - 5000 then
      { sentCount := 0, rest := p :: rest, before := before }
    else
      { sentCount := leadingGroup p.ts (p :: rest),
        rest := dropGroup p.ts (p :: rest),
        before := updateBefore before (tsDiffUsec (prevTs : Int) (p.ts : Int) khz) }

theorem tvPassed_eq (b n : TimeVal) : tvPassed b n = tvTotal n - tvTotal b := by
  unfold tvPassed tvTotal
  split_ifs <;> ring

theorem audioRound_sent_iff (prevTs curTs : Nat) (khz : Int) (before now : TimeVal) :
    (audioRound false prevTs curTs khz before now).sent = true ↔
      tvTotal now - tvTotal before ≥ tsDiffUsec (prevTs : Int) (curTs : Int) khz - 5000 := by
  unfold audioRound
  rw [if_neg (by simp), tvPassed_eq]
  split_ifs with h
  · constructor
    · intro hc; exact absurd hc (by simp)
    · omega
  · constructor
    · intro _; omega
    · intro _; rfl

theorem leadingGroup_cons_pos (p : FramePacket) (rest : List FramePacket) :
    0 < leadingGroup p.ts (p :: rest) := by
  unfold leadingGroup; simp

theorem videoRound_cons_eq (p : FramePacket) (rest : List FramePacket) (prevTs : Nat)
    (khz : Int) (before now : TimeVal) :
    videoRound (p :: rest) false prevTs khz before now =
      if tvPassed before now < tsDiffUsec (prevTs : Int) (p.ts : Int) khz - 5000 then
        { sentCount := 0, rest := p :: rest, before := before }
      else
        { sentCount := leadingGroup p.ts (p :: rest),
          rest := dropGroup p.ts (p :: rest),
          before := updateBefore before (tsDiffUsec (prevTs : Int) (p.ts : Int) khz) } := by
  simp only [videoRound]
  rw [if_neg (by simp)]

/-- C3: pacer scheduling.  The first packet of each medium is sent
immediately; a subsequent audio packet is sent in a round iff the wall clock
advanced by at least the intended spacing minus 5000 µs since the reference
time of the previous send, and likewise for video, where a send dispatches
the entire leading group of packets sharing the head timestamp; the audio
clock is 8 kHz for payload types 0, 8 and 9 and 48 kHz otherwise, and the
video clock is 90 kHz. -/
theorem claim_C3_pacer_schedule :
    (∀ (prevTs curTs : Nat) (khz : Int) (before now : TimeVal),
      (audioRound true prevTs curTs khz before now).sent = true) ∧
    (∀ (prevTs curTs : Nat) (khz : Int) (before now : TimeVal),
      ((audioRound false prevTs curTs khz before now).sent = true ↔
        tvTotal now - tvTotal before ≥ tsDiffUsec (prevTs : Int) (curTs : Int) khz - 5000)) ∧
    (∀ (p : FramePacket) (rest : List FramePacket) (prevTs : Nat) (khz : Int)
        (before now : TimeVal),
      (0 < (videoRound (p :: rest) false prevTs khz before now).sentCount ↔
        tvTotal now - tvTotal before ≥ tsDiffUsec (prevTs : Int) (p.ts : Int) khz - 5000) ∧
      (0 < (videoRound (p :: rest) false prevTs khz before now).sentCount →
        (videoRound (p :: rest) false prevTs khz before now).sentCount =
          leadingGroup p.ts (p :: rest)) ∧
      (videoRound (p :: rest) true prevTs khz before now).sentCount =
        leadingGroup p.ts (p :: rest)) ∧
    akhzOf 0 = 8 ∧ akhzOf 8 = 8 ∧ akhzOf 9 = 8 ∧
    (∀ pt : Int, ¬(pt = 0 ∨ pt = 8 ∨ pt = 9) → akhzOf pt = 48) ∧
    vkhz = 90 := by
  refine ⟨fun _ _ _ _ _ => rfl, audioRound_sent_iff, ?_, rfl, rfl, rfl, ?_, rfl⟩
  · intro p rest prevTs khz before now
    rw [videoRound_cons_eq, tvPassed_eq]
    have hpos := leadingGroup_cons_pos p rest
    split_ifs with h
    · refine ⟨by simp only [lt_self_iff_false, false_iff]; omega, by simp, rfl⟩
    · exact ⟨by simp only [hpos, true_iff]; omega, fun _ => rfl, rfl⟩
  · intro pt hpt
    unfold akhzOf
    simp [hpt]

theorem claim_C3_pacer_schedule_witness :
    akhzOf 111 = 48 :=
  claim_C3_pacer_schedule.2.2.2.2.2.2.1 111 (by decide)

/-! ## Play request: accessing the frames (`janus_transcode_handler`,
lines 1733-1752)

For a found, completed transcoding the handler builds the frame index for
each medium that has a file; failure of `janus_transcode_get_frames` is a
`NULL` return, modelled as `none`. -/

/-- `JANUS_TRANSCODE_ERROR_INVALID_TRANSCODING` (line 675). -/
def ERROR_INVALID_TRANSCODING : Nat := 417

/-- Outcome of the frame-access step of a `play` request: either an error
event (no playout set up) or a `preparing` result with an optional warning
and the media that will actually play. -/
inductive PlayOutcome where
  | failure (code : Nat)
  | success (warning : Option String) (audio video : Bool)
  deriving Repr, DecidableEq

/-- Lines 1733-1752: try to index the audio file (if the entry has one) and
the video file (if the entry has one); each failure leaves a warning, a later
video warning overwriting an earlier audio one; if both frame lists end up
`NULL` the request fails with 417, otherwise it proceeds with whatever
indexed. -/
def playAccessFrames (arcFile vrcFile : Bool)
    (aRes vRes : Option (List FramePacket)) : PlayOutcome :=
  let aframes : Option (List FramePacket) := if arcFile then aRes else none
  let vframes : Option (List FramePacket) := if vrcFile then vRes else none
  let warning : Option String :=
    if arcFile ∧ aframes = none then some "Broken audio file, playing video only"
    else none
  let warning : Option String :=
    if vrcFile ∧ vframes = none then some "Broken video file, playing audio only"
    else warning
  if aframes = none ∧ vframes = none then
    PlayOutcome.failure ERROR_INVALID_TRANSCODING
  else
    PlayOutcome.success warning (aframes ≠ none) (vframes ≠ none)

/-- C4: for a play request on an entry with both an audio and a video file,
failure of both frame-index builds yields error 417 and no playout; failure
of exactly one yields success with a warning naming the failed side, playing
the other medium only. -/
theorem claim_C4_play_partial_failure (aRes vRes : Option (List FramePacket)) :
    (aRes = none → vRes = none →
      playAccessFrames true true aRes vRes = PlayOutcome.failure 417) ∧
    (aRes = none → vRes ≠ none →
      playAccessFrames true true aRes vRes =
        PlayOutcome.success (some "Broken audio file, playing video only") false true) ∧
    (aRes ≠ none → vRes = none →
      playAccessFrames true true aRes vRes =
        PlayOutcome.success (some "Broken video file, playing audio only") true false) := by
  refine ⟨?_, ?_, ?_⟩ <;>
    · intro ha hv
      cases aRes <;> cases vRes <;> simp_all [playAccessFrames, ERROR_INVALID_TRANSCODING]

theorem claim_C4_play_partial_failure_witness :
    playAccessFrames true true (some []) none =
      PlayOutcome.success (some "Broken video file, playing audio only") true false :=
  (claim_C4_play_partial_failure (some []) none).2.2 (by simp) rfl

/-! ## Teardown (`janus_transcode_hangup_media_internal`, lines 1280-1390)

The teardown path is modelled as a state transformer with an explicit effect
record counting pushed `done` events, transcoder/sink closes and `.nfo`
writes.  Writers, sink and the transcoding object are reduced to presence
flags; `fopen` of the `.nfo` file is assumed to succeed. -/

/-- The session fields read or written by the teardown path. -/
structure HangSession where
  active : Bool
  transcoder : Bool
  arc : Bool
  vrc : Bool
  pub : Bool
  transcoding : Bool
  completed : Bool
  hangingup : Bool
  destroyed : Bool
  deriving Repr, DecidableEq

/-- Observable effects of one `hangup_media` invocation. -/
structure HangEffects where
  doneEvents : Nat
  audioCloses : Nat
  videoCloses : Nat
  pubCloses : Nat
  nfoWrites : Nat
  deriving Repr, DecidableEq

def noEffects : HangEffects := ⟨0, 0, 0, 0, 0⟩

/-- One invocation of `janus_transcode_hangup_media_internal`
(lines 1280-1390): clear `active`; bail out if destroyed or if the
`hangingup` 0→1 compare-and-exchange fails; push the `done` event; close
and free whichever of the audio/video transcoders and the publish sink are
present; for a transcoder session with a transcoding object write the `.nfo`
and set `completed`; release the transcoding reference; finally (line 1389)
set `hangingup` back to 0. -/
def hangupMedia (s : HangSession) : HangSession × HangEffects :=
  let s := { s with active := false }
  if s.destroyed then (s, noEffects)
  else if s.hangingup then (s, noEffects)
  else
    let s := { s with hangingup := true }
    let eff := { noEffects with doneEvents := 1 }
    let s := { s with active := false }
    let p1 := if s.arc then ({ s with arc := false }, { eff with audioCloses := eff.audioCloses + 1 }) else (s, eff)
    let s := p1.1
    let eff := p1.2
    let p2 := if s.vrc then ({ s with vrc := false }, { eff with videoCloses := eff.videoCloses + 1 }) else (s, eff)
    let s := p2.1
    let eff := p2.2
    let p3 := if s.pub then ({ s with pub := false }, { eff with pubCloses := eff.pubCloses + 1 }) else (s, eff)
    let s := p3.1
    let eff := p3.2
    let p4 :=
      if s.transcoder ∧ s.transcoding then
        ({ s with completed := true }, { eff with nfoWrites := eff.nfoWrites + 1 })
      else (s, eff)
    let s := p4.1
    let eff := p4.2
    let s := if s.transcoding then { s with transcoding := false } else s
    let s := { s with hangingup := false }
    (s, eff)

/-- A capturing session about to be hung up: active transcoder with both
writers, the publish sink and an open transcoding entry. -/
def capturingSession : HangSession :=
  { active := true, transcoder := true, arc := true, vrc := true, pub := true,
    transcoding := true, completed := false, hangingup := false, destroyed := false }

/-- C5 (counterexample): two consecutive hangup invocations on a capturing
session push TWO `done` events, not one: line 1389 resets the `hangingup`
latch to 0 at the end of the teardown, so the second invocation passes the
compare-and-exchange again and re-runs the event push. -/
theorem claim_C5_counterexample :
    (hangupMedia capturingSession).2.doneEvents +
      (hangupMedia (hangupMedia capturingSession).1).2.doneEvents = 2 ∧
    (hangupMedia capturingSession).1.hangingup = false := by
  constructor <;> rfl

/-- C5 (amended): two consecutive hangup invocations close each transcoder
and the sink at most once and write exactly one `.nfo` (the writer, sink and
transcoding pointers are nulled inside the first pass, so the second pass
finds nothing left to close); but each invocation that enters the teardown
pushes its own `done` event, two in total, because the `hanging_up` latch is
cleared again at the end of the teardown and therefore only guards against
concurrent re-entry, not against a repeated stop. -/
theorem claim_C5_teardown_idempotent (s : HangSession)
    (hd : s.destroyed = false) (hh : s.hangingup = false)
    (ht : s.transcoder = true) (hr : s.transcoding = true) :
    (hangupMedia s).2.audioCloses +
      (hangupMedia (hangupMedia s).1).2.audioCloses ≤ 1 ∧
    (hangupMedia s).2.videoCloses +
      (hangupMedia (hangupMedia s).1).2.videoCloses ≤ 1 ∧
    (hangupMedia s).2.pubCloses +
      (hangupMedia (hangupMedia s).1).2.pubCloses ≤ 1 ∧
    (hangupMedia s).2.nfoWrites +
      (hangupMedia (hangupMedia s).1).2.nfoWrites = 1 ∧
    (hangupMedia s).2.doneEvents +
      (hangupMedia (hangupMedia s).1).2.doneEvents = 2 := by
  rcases s with ⟨ac, tr, arcb, vrcb, pubb, trn, comp, hang, dest⟩
  simp only at hd hh ht hr
  subst hd hh ht hr
  cases ac <;> cases arcb <;> cases vrcb <;> cases pubb <;> cases comp <;> decide

theorem claim_C5_teardown_idempotent_witness :
    (hangupMedia capturingSession).2.nfoWrites +
      (hangupMedia (hangupMedia capturingSession).1).2.nfoWrites = 1 :=
  (claim_C5_teardown_idempotent capturingSession rfl rfl rfl rfl).2.2.2.1

/-! ## Simulcast capture path (`janus_transcode_incoming_rtp`,
lines 1194-1235)

The host helpers `janus_rtp_simulcasting_context_process_rtp` (the layer
selection) and `janus_rtp_header_update` (the seq/timestamp rewrite through
the switching context) live in the gateway core, outside this plugin; their
combined outcome is an oracle input: whether the packet is kept, and the
rewritten sequence number / timestamp.  The RTP header is reduced to the
three fields this code path touches. -/

/-- The RTP header fields backed up and rewritten by the simulcast path. -/
structure RtpHeader where
  ssrc : Nat
  seq : Nat
  timestamp : Nat
  deriving Repr, DecidableEq

/-- Oracle outcome of the host-side simulcast processing: `save` is the
return of `janus_rtp_simulcasting_context_process_rtp`; `updSeq`/`updTs` are
the values `janus_rtp_header_update` leaves in the header when the packet is
kept. -/
structure SimOutcome where
  save : Bool
  updSeq : Nat
  updTs : Nat
  deriving Repr, DecidableEq

/-- Result of one simulcast-path ingest: the header as handed to the capture
writer (`janus_transcoder_save_frame`), the header as handed to the publish
sink (`janus_transcoder_pub_save_frame`), the header as it stands when the
callback returns, and the resulting `rec_vssrc`. -/
structure IngestResult where
  writerPkt : Option RtpHeader
  pubPkt : Option RtpHeader
  finalHdr : RtpHeader
  recVssrc : Nat
  deriving Repr, DecidableEq

/-- Lines 1194-1230: back up ssrc/seq/timestamp; drop if the layer selector
says so; otherwise rewrite seq/timestamp through the switching context,
assign `rec_vssrc` on first use (`g_random_int()` modelled as `randVal`),
stamp `rec_vssrc` into the header for the capture writer, restore the
original SSRC before handing the packet to the publish sink, and finally
restore the original timestamp and sequence number. -/
def incomingRtpSimulcast (recVssrc randVal : Nat) (hdr : RtpHeader)
    (sim : SimOutcome) : IngestResult :=
  let seqNumber := hdr.seq
  let timestamp := hdr.timestamp
  let ssrc := hdr.ssrc
  if !sim.save then
    { writerPkt := none, pubPkt := none, finalHdr := hdr, recVssrc := recVssrc }
  else
    let hdr := { hdr with seq := sim.updSeq, timestamp := sim.updTs }
    let v := if recVssrc = 0 then randVal else recVssrc
    let hdr := { hdr with ssrc := v }
    let writer := some hdr
    let hdr := { hdr with ssrc := ssrc }
    let pub := some hdr
    let hdr := { hdr with timestamp := timestamp, seq := seqNumber }
    { writerPkt := writer, pubPkt := pub, finalHdr := hdr, recVssrc := v }

/-- C6 (counterexample): the publish sink does NOT receive `rec_vssrc`.  The
original SSRC is restored (line 1227) *before*
`janus_transcoder_pub_save_frame` is called (line 1228), so with
`rec_vssrc = 5` and an incoming SSRC of 7 the writer sees SSRC 5 but the
sink sees SSRC 7. -/
theorem claim_C6_counterexample :
    (incomingRtpSimulcast 5 99 ⟨7, 1, 2⟩ ⟨true, 10, 20⟩).writerPkt =
      some ⟨5, 10, 20⟩ ∧
    (incomingRtpSimulcast 5 99 ⟨7, 1, 2⟩ ⟨true, 10, 20⟩).pubPkt =
      some ⟨7, 10, 20⟩ ∧
    ∀ pkt ∈ (incomingRtpSimulcast 5 99 ⟨7, 1, 2⟩ ⟨true, 10, 20⟩).pubPkt,
      pkt.ssrc ≠ 5 := by
  refine ⟨rfl, rfl, ?_⟩
  intro pkt hp
  have h2 : some ({ ssrc := 7, seq := 10, timestamp := 20 } : RtpHeader) = some pkt := hp
  rw [← Option.some.inj h2]
  decide

/-- C6 (amended): on every saved simulcast video packet the header handed to
the capture writer carries the session's stable `rec_vssrc` (assigned from
the random value at the first saved packet when still 0, constant
afterwards), the header handed to the publish sink carries the *original*
incoming SSRC (restored just before that call), and the original SSRC,
sequence number and timestamp are all restored before the ingest callback
returns. -/
theorem claim_C6_ssrc_rewrite :
    (∀ (recVssrc randVal : Nat) (hdr : RtpHeader) (sim : SimOutcome),
      sim.save = true → recVssrc ≠ 0 →
      (incomingRtpSimulcast recVssrc randVal hdr sim).writerPkt =
        some { ssrc := recVssrc, seq := sim.updSeq, timestamp := sim.updTs } ∧
      (incomingRtpSimulcast recVssrc randVal hdr sim).recVssrc = recVssrc ∧
      (incomingRtpSimulcast recVssrc randVal hdr sim).pubPkt =
        some { ssrc := hdr.ssrc, seq := sim.updSeq, timestamp := sim.updTs } ∧
      (incomingRtpSimulcast recVssrc randVal hdr sim).finalHdr = hdr) ∧
    (∀ (randVal : Nat) (hdr : RtpHeader) (sim : SimOutcome),
      sim.save = true →
      (incomingRtpSimulcast 0 randVal hdr sim).writerPkt =
        some { ssrc := randVal, seq := sim.updSeq, timestamp := sim.updTs } ∧
      (incomingRtpSimulcast 0 randVal hdr sim).recVssrc = randVal) ∧
    (∀ (recVssrc randVal : Nat) (hdr : RtpHeader) (sim : SimOutcome),
      sim.save = false →
      (incomingRtpSimulcast recVssrc randVal hdr sim).writerPkt = none ∧
      (incomingRtpSimulcast recVssrc randVal hdr sim).pubPkt = none ∧
      (incomingRtpSimulcast recVssrc randVal hdr sim).finalHdr = hdr) := by
  refine ⟨?_, ?_, ?_⟩
  · intro recVssrc randVal hdr sim hs hv
    cases hdr
    simp [incomingRtpSimulcast, hs, hv]
  · intro randVal hdr sim hs
    cases hdr
    simp [incomingRtpSimulcast, hs]
  · intro recVssrc randVal hdr sim hs
    cases hdr
    simp [incomingRtpSimulcast, hs]

theorem claim_C6_ssrc_rewrite_witness :
    (incomingRtpSimulcast 3 42 ⟨8, 100, 9000⟩ ⟨true, 101, 9090⟩).writerPkt =
      some ⟨3, 101, 9090⟩ ∧
    (incomingRtpSimulcast 3 42 ⟨8, 100, 9000⟩ ⟨true, 101, 9090⟩).finalHdr =
      ⟨8, 100, 9000⟩ :=
  ⟨(claim_C6_ssrc_rewrite.1 3 42 ⟨8, 100, 9000⟩ ⟨true, 101, 9090⟩ rfl
      (by decide)).1,
   (claim_C6_ssrc_rewrite.1 3 42 ⟨8, 100, 9000⟩ ⟨true, 101, 9090⟩ rfl
      (by decide)).2.2.2⟩

/-! ## List request (`janus_transcode_handle_message`, lines 961-992) -/

/-- The catalog fields the `list` request reads from a
`janus_transcode_transcoding`. -/
structure CatalogRec where
  id : Nat
  name : String
  date : String
  hasAudio : Bool
  acodecName : Option String
  hasVideo : Bool
  vcodecName : Option String
  completed : Bool
  deriving Repr, DecidableEq

/-- One element of the `list` response array. -/
structure ListEntry where
  id : Nat
  name : String
  date : String
  audio : Bool
  audioCodec : Option String
  video : Bool
  videoCodec : Option String
  deriving Repr, DecidableEq

/-- The JSON object built per entry (lines 974-985): `audio`/`video` report
file presence, codec fields appear only when the codec is not NONE. -/
def mkListEntry (rec : CatalogRec) : ListEntry :=
  { id := rec.id, name := rec.name, date := rec.date,
    audio := rec.hasAudio, audioCodec := rec.acodecName,
    video := rec.hasVideo, videoCodec := rec.vcodecName }

/-- The `list` response envelope. -/
structure ListResponse where
  transcode : String
  list : List ListEntry
  deriving Repr, DecidableEq

/-- The `list` request (lines 961-992): iterate the catalog, skip every entry
whose `completed` flag is unset, emit one object per remaining entry, and
wrap the array under `transcode = "list"`.  (The hash-table iteration order
is unspecified; the catalog is modelled as a list.) -/
def listRequest (catalog : List CatalogRec) : ListResponse :=
  { transcode := "list",
    list := (catalog.filter fun rec => rec.completed).map mkListEntry }

/-- C7: `list` never returns an entry whose `completed` flag is false - every
returned element comes from a completed catalog entry - and against an empty
catalog the response is exactly `transcode = "list"` with an empty array. -/
theorem claim_C7_list_completed_only (catalog : List CatalogRec) :
    (∀ e ∈ (listRequest catalog).list,
      ∃ rec ∈ catalog, rec.completed = true ∧ e = mkListEntry rec) ∧
    listRequest [] = { transcode := "list", list := [] } := by
  refine ⟨?_, rfl⟩
  intro e he
  simp only [listRequest, List.mem_map, List.mem_filter] at he
  obtain ⟨rec, ⟨hmem, hcomp⟩, hmk⟩ := he
  exact ⟨rec, hmem, hcomp, hmk.symm⟩

/-- A sample completed catalog entry used to witness the `list` theorem. -/
def sampleCompletedRec : CatalogRec :=
  { id := 1, name := "n", date := "d", hasAudio := true,
    acodecName := some "opus", hasVideo := false, vcodecName := none,
    completed := true }

theorem claim_C7_list_completed_only_witness :
    ∃ rec ∈ [sampleCompletedRec],
      rec.completed = true ∧ mkListEntry sampleCompletedRec = mkListEntry rec :=
  (claim_C7_list_completed_only [sampleCompletedRec]).1
    (mkListEntry sampleCompletedRec) (by simp [listRequest, sampleCompletedRec])

/-! ## REMB feedback (`janus_transcode_send_rtcp_feedback`, lines 1145-1165,
and its state initialisation in `janus_transcode_create_session`,
lines 837-839)

Only the REMB half of the feedback helper is relevant to the ramp claim; the
monotonic clock is an explicit `now` input in microseconds. -/

/-- The REMB-related session fields. -/
structure RembState where
  startup : Nat
  last : Int
  bitrate : Nat
  deriving Repr, DecidableEq

/-- REMB state set up by `janus_transcode_create_session` (lines 837-839):
`video_remb_startup = 4`, `video_remb_last = now`, and a 1 mbps default
bitrate. -/
def rembInit (now : Int) : RembState :=
  { startup := 4, last := now, bitrate := 1024 * 1024 }

/-- One invocation of the REMB part of the feedback helper (lines 1145-1165):
while ramping up (`startup > 0`) always emit, dividing the configured bitrate
by the countdown and decrementing it; afterwards emit the full bitrate only
when at least 5 s have elapsed since the last REMB; every emission refreshes
`video_remb_last`.  Returns the emitted REMB bitrate, if any. -/
def sendRtcpFeedbackRemb (s : RembState) (now : Int) : Option Nat × RembState :=
  if s.startup > 0 ∨ now - s.last ≥ 5 * 1000000 then
    (some (if s.startup > 0 then s.bitrate / s.startup else s.bitrate),
     { s with startup := if s.startup > 0 then s.startup - 1 else s.startup,
              last := now })
  else (none, s)

/-- Fold the feedback helper over a sequence of invocation times, collecting
the emitted REMB values. -/
def rembRun (s : RembState) (nows : List Int) : List (Option Nat) × RembState :=
  match nows with
  | [] => ([], s)
  | t :: ts =>
    let r := sendRtcpFeedbackRemb s t
    let rs := rembRun r.2 ts
    (r.1 :: rs.1, rs.2)

/-- C8: starting from a fresh session (ramp counter 4), the first four
invocations emit REMBs of `B/4, B/3, B/2, B` whatever the invocation times;
once the ramp counter reaches 0, an invocation emits a REMB - always the full
configured bitrate - iff at least 5 s have elapsed since the previous REMB,
and an emission refreshes the reference time. -/
theorem claim_C8_remb_ramp :
    (∀ (B : Nat) (t0 t1 t2 t3 t4 : Int),
      (rembRun { startup := 4, last := t0, bitrate := B } [t1, t2, t3, t4]).1 =
        [some (B / 4), some (B / 3), some (B / 2), some B]) ∧
    (∀ (s : RembState) (now : Int), s.startup = 0 →
      ((sendRtcpFeedbackRemb s now).1 = some s.bitrate ↔ now - s.last ≥ 5 * 1000000) ∧
      ((sendRtcpFeedbackRemb s now).1 = none ↔ now - s.last < 5 * 1000000) ∧
      (now - s.last ≥ 5 * 1000000 → (sendRtcpFeedbackRemb s now).2.last = now)) ∧
    (∀ now : Int, (rembInit now).startup = 4) := by
  refine ⟨?_, ?_, fun _ => rfl⟩
  · intro B t0 t1 t2 t3 t4
    simp [rembRun, sendRtcpFeedbackRemb]
  · intro s now h0
    unfold sendRtcpFeedbackRemb
    rw [h0]
    simp only [lt_self_iff_false, false_or, if_false, ite_false]
    split_ifs with h
    · refine ⟨by simp [h]; omega, by simp [h]; omega, fun _ => rfl⟩
    · refine ⟨by simp [h]; omega, by simp [h]; omega, fun hc => absurd hc h⟩

theorem claim_C8_remb_ramp_witness :
    (sendRtcpFeedbackRemb { startup := 0, last := 0, bitrate := 1000 } 5000000).1 =
      some 1000 :=
  ((claim_C8_remb_ramp.2.1 { startup := 0, last := 0, bitrate := 1000 } 5000000
      rfl).1).mpr (by decide)

/-! ## Configure request (`janus_transcode_handle_message`, lines 993-1018)
and session defaults (`janus_transcode_create_session`, line 841) -/

/-- The session fields touched by `configure`. -/
structure CfgSession where
  videoBitrate : Nat
  videoKeyframeInterval : Nat
  deriving Repr, DecidableEq

/-- The `configure`-related defaults set by `janus_transcode_create_session`
(lines 839-841): 1 mbps bitrate, 15000 ms keyframe interval. -/
def createSessionCfg : CfgSession :=
  { videoBitrate := 1024 * 1024, videoKeyframeInterval := 15000 }

/-- The settings echo returned in the `configure` response (lines 1014-1016). -/
structure CfgSettings where
  videoKeyframeInterval : Nat
  videoBitrateMax : Nat
  deriving Repr, DecidableEq

/-- The `configure` request (lines 993-1018): an absent field leaves the
session value untouched; a present `video-bitrate-max` is stored; a present
`video-keyframe-interval` is stored and then immediately overwritten with
1000 (line 1007).  The response echoes the resulting session values. -/
def configureRequest (s : CfgSession)
    (videoBitrateMax videoKeyframeInterval : Option Nat) :
    CfgSession × CfgSettings :=
  let s :=
    match videoBitrateMax with
    | some v => { s with videoBitrate := v }
    | none => s
  let s :=
    match videoKeyframeInterval with
    | some v =>
      let s := { s with videoKeyframeInterval := v }
      { s with videoKeyframeInterval := 1000 }
    | none => s
  (s, { videoKeyframeInterval := s.videoKeyframeInterval,
        videoBitrateMax := s.videoBitrate })

/-- C9: whenever a `configure` request carries the video-keyframe-interval
field, the session interval ends up at 1000 ms no matter what value the
client supplied, and the settings echo reports 1000; without any configure
request the interval keeps its creation default of 15000 ms. -/
theorem claim_C9_keyframe_interval_clobbered :
    (∀ (s : CfgSession) (b : Option Nat) (v : Nat),
      (configureRequest s b (some v)).1.videoKeyframeInterval = 1000 ∧
      (configureRequest s b (some v)).2.videoKeyframeInterval = 1000) ∧
    createSessionCfg.videoKeyframeInterval = 15000 := by
  refine ⟨?_, rfl⟩
  intro s b v
  cases b <;> exact ⟨rfl, rfl⟩

/-! ## New transcoding codec selection (`janus_transcode_handler`,
lines 1540-1557) -/

/-- Video codec tags (`janus_videocodec` of the host SDP utilities). -/
inductive VideoCodec
  | vp8
  | vp9
  | h264
  | nocodec
  deriving Repr, DecidableEq

/-- Modelled from the spec: `janus_videocodec_from_name` lives in the
gateway's SDP utilities, which are part of this repository but not under the
provided sources; the spec's codec enumeration (vp8, vp9, h264, otherwise
"none") determines the mapping. -/
def videocodecFromName : Option String → VideoCodec
  | some "vp8" => VideoCodec.vp8
  | some "vp9" => VideoCodec.vp9
  | some "h264" => VideoCodec.h264
  | _ => VideoCodec.nocodec

/-- SDP m-line directions relevant to lines 1547-1556. -/
inductive SdpDirection
  | sendrecv
  | sendonly
  | recvonly
  | inactive
  deriving Repr, DecidableEq

/-- The video-codec selection for a new (non-renegotiation) transcoding
(lines 1540-1557): the preferred video codec found in the offer is
unconditionally overwritten with "h264" (line 1543) before `rec->vcodec` is
assigned; a recvonly video m-line afterwards downgrades the codec to NONE
(lines 1554-1556). -/
def newTranscodingVcodec (prefVcodec : Option String)
    (videoDir : SdpDirection) : VideoCodec :=
  let _vcodecName := prefVcodec
  let vcodecName := some "h264"
  let vc := videocodecFromName vcodecName
  if videoDir = SdpDirection.recvonly then VideoCodec.nocodec else vc

/-- C10: for every new transcode request whose offer's video m-line is not
recvonly (so a video entry and writer are actually created), the entry's
video codec is H.264 regardless of the preferred video codec found in the
client's SDP offer - the lookup result is dead, overwritten with "h264". -/
theorem claim_C10_vcodec_forced_h264 (prefVcodec : Option String)
    (videoDir : SdpDirection) (h : videoDir ≠ SdpDirection.recvonly) :
    newTranscodingVcodec prefVcodec videoDir = VideoCodec.h264 := by
  unfold newTranscodingVcodec
  rw [if_neg h]
  rfl

theorem claim_C10_vcodec_forced_h264_witness :
    newTranscodingVcodec (some "vp8") SdpDirection.sendrecv = VideoCodec.h264 :=
  claim_C10_vcodec_forced_h264 (some "vp8") SdpDirection.sendrecv (by decide)

end JanusTranscode
